import Mathlib

/-!
Shallow embedding of the LC-3 virtual machine in `src/main.go`
(go-lvc3-vm).  Machine words are modelled as `Nat` with explicit
`% 65536` wherever the Go `uint16` arithmetic wraps.  The Go global
arrays `memory [uint16Max]uint16` and `registers [RCount]uint16` are
modelled as total functions `Nat → Nat` together with the explicit
bounds checks that Go performs at every index (an out-of-range index
panics, modelled by `Option.none`).  Terminal input is modelled by two
streams: `keys` for the curses `screen.Getch` calls made by `checkKey`,
and `input` for the buffered stdin runes read by `getChar`.  `print`
calls append the emitted character code points to `output`.
-/

/-- Pointwise update of a function modelling a Go array store. -/
def upd (f : Nat → Nat) (i v : Nat) : Nat → Nat :=
  fun j => if j = i then v else f j

/-- `const uint16Max = 65535` (used by the Go code as the memory array length). -/
def uint16Max : Nat := 65535

/-- Register indices, from the Go `const ( R0 = iota ... )` block. -/
def R0 : Nat := 0
def R7 : Nat := 7
def RPc : Nat := 8
def RCond : Nat := 9
def RCount : Nat := 10

/-- Memory mapped keyboard status register address. -/
def MrKbsr : Nat := 0xFE00
/-- Memory mapped keyboard data register address. -/
def MrKbdr : Nat := 0xFE02

/-- Condition flag constants. -/
def FlagPositive : Nat := 1
def FlagZero : Nat := 2
def FlagNegative : Nat := 4

/-- Trap vector constants. -/
def TrapGetC : Nat := 0x20
def TrapOut : Nat := 0x21
def TrapPutS : Nat := 0x22
def TrapIn : Nat := 0x23
def TrapPutSP : Nat := 0x24
def TrapHalt : Nat := 0x25

/-- The state of the virtual machine: the two global arrays, the loop
flag `running`, the characters printed so far, and the two input
streams (curses key events and stdin runes). -/
structure Machine where
  memory : Nat → Nat
  registers : Nat → Nat
  running : Bool
  output : List Nat
  keys : List Nat
  input : List Nat

/-- `print` of a single character code point. -/
def emit (c : Nat) (m : Machine) : Machine :=
  { m with output := m.output ++ [c] }

/-- `print` of a whole string, as its list of character code points. -/
def emitAll (cs : List Nat) (m : Machine) : Machine :=
  { m with output := m.output ++ cs }

/-- `func signExtend(num uint16, bitCount uint) uint16`.  The Go mask
`0xffff << bitCount` is computed in `uint16`, hence the `% 65536`. -/
def signExtend (num : Nat) (bitCount : Nat) : Nat :=
  if (num >>> (bitCount - 1)) &&& 1 = 1 then
    num ||| ((0xffff <<< bitCount) % 65536)
  else
    num

/-- `func pcPlusOffset(valInPc uint16, num uint16, bitCount uint) uint16`:
sign extend `num` over the 16-bit pattern and add it to `valInPc` with
two's-complement wraparound, which over bit patterns is addition
`% 65536`. -/
def pcPlusOffset (valInPc num : Nat) (bitCount : Nat) : Nat :=
  let signedNum :=
    if (num >>> (bitCount - 1)) &&& 1 = 1 then
      num ||| ((0xffff <<< bitCount) % 65536)
    else
      num
  (valInPc + signedNum) % 65536

/-- `func checkKey() bool`: one `screen.Getch()` event is consumed; the
result is whether it is nonzero.  An empty stream means `Getch` blocks
forever, modelled as `none`. -/
def checkKey : List Nat → Option (Bool × List Nat)
  | [] => none
  | k :: rest => some (k != 0, rest)

/-- `func getChar() uint16`: read one rune from stdin and truncate it to
a byte (`uint16(byte(char))`).  A read error panics (`none`). -/
def getChar (m : Machine) : Option (Nat × Machine) :=
  match m.input with
  | [] => none
  | c :: rest => some (c % 256, { m with input := rest })

/-- `func memRead(address uint16) uint16`.  Note the Go `else` branch is
attached to the outer `if address == MrKbsr`, so it is the reads of
every address other than `MrKbsr` that clear the `MrKbsr` cell, and a
read of `MrKbsr` with no pending key leaves the cell untouched.  The
final `memory[address]` indexing panics (`none`) when
`address ≥ uint16Max`, the length of the Go `memory` array. -/
def memRead (address : Nat) (m : Machine) : Option (Nat × Machine) :=
  if address = MrKbsr then
    match checkKey m.keys with
    | none => none
    | some (pending, keys1) =>
      if pending then
        match getChar { m with keys := keys1 } with
        | none => none
        | some (c, m1) =>
          let mem1 := upd (upd m1.memory MrKbsr (0x1 <<< 15)) MrKbdr c
          some (mem1 address, { m1 with memory := mem1 })
      else
        some (m.memory address, { m with keys := keys1 })
  else
    let mem1 := upd m.memory MrKbsr 0
    if address < uint16Max then
      some (mem1 address, { m with memory := mem1 })
    else
      none

/-- `func memWrite(address uint16, value uint16)`: panics (`none`) when
`address ≥ uint16Max`, the length of the Go `memory` array. -/
def memWrite (address value : Nat) (m : Machine) : Option Machine :=
  if address < uint16Max then
    some { m with memory := upd m.memory address value }
  else
    none

/-- Read `registers[i]` with the Go bounds check (`RCount = 10`
entries). -/
def regGet (m : Machine) (i : Nat) : Option Nat :=
  if i < RCount then some (m.registers i) else none

/-- Write `registers[i] = v`.  Used only at indices that are masked with
`& 0x7` or are the named constants, all provably below `RCount`, so the
Go bounds check cannot fail there. -/
def setReg (i v : Nat) (m : Machine) : Machine :=
  { m with registers := upd m.registers i v }

/-- `func updateFlags(register uint16)`. -/
def updateFlags (register : Nat) (m : Machine) : Machine :=
  if m.registers register = 0 then
    setReg RCond FlagZero m
  else if m.registers register >>> 15 = 1 then
    setReg RCond FlagNegative m
  else
    setReg RCond FlagPositive m

/-- The `TrapPutS` loop: read successive words, print the low byte of
each, stop at the first zero word.  The Go `for {}` is unbounded; the
fuel argument only bounds the modelled recursion and the call site
passes 65536, which the loop can never exhaust because the address
reaches the faulting index `0xFFFF` within 65536 steps if no zero word
or blocked read stops it first. -/
def putsLoop : Nat → Nat → Machine → Option Machine
  | 0, _, _ => none
  | fuel + 1, loc, m =>
    match memRead loc m with
    | none => none
    | some (char, m1) =>
      if char = 0 then some m1
      else putsLoop fuel ((loc + 1) % 65536) (emit (char % 256) m1)

/-- The `TrapPutSP` loop: two packed bytes per word, low byte first,
stopping at the first zero byte. -/
def putspLoop : Nat → Nat → Machine → Option Machine
  | 0, _, _ => none
  | fuel + 1, loc, m =>
    match memRead loc m with
    | none => none
    | some (readv, m1) =>
      if readv &&& 0xff = 0 then some m1
      else
        let m2 := emit ((readv &&& 0xff) % 256) m1
        if readv >>> 8 = 0 then some m2
        else putspLoop fuel ((loc + 1) % 65536) (emit ((readv >>> 8) % 256) m2)

/-- The code points of the Go string literal printed by `TrapIn`. -/
def promptChars : List Nat :=
  [69, 110, 116, 101, 114, 32, 97, 32, 99, 104, 97, 114, 97, 99, 116, 101, 114, 58, 32]

/-- The code points of the Go string literal printed by `TrapHalt`. -/
def haltChars : List Nat := [104, 97, 108, 116]

/-- One execution of the `switch opCode` body of `main`, applied to the
state after the fetch and the `registers[RPc]++` increment.  `none`
models a Go panic (the `not implemented` opcodes and every failing
array bounds check). -/
def execInstr (instruction : Nat) (m : Machine) : Option Machine :=
  match instruction >>> 12 with
  | 0 => -- OpBreak
    if ((instruction >>> 11) &&& 1 = 1 ∧ m.registers RCond = FlagNegative)
        ∨ ((instruction >>> 10) &&& 1 = 1 ∧ m.registers RCond = FlagZero)
        ∨ ((instruction >>> 9) &&& 1 = 1 ∧ m.registers RCond = FlagPositive) then
      some (setReg RPc (pcPlusOffset (m.registers RPc) (instruction &&& 0x1fff) 9) m)
    else
      some m
  | 1 => -- OpAdd
    let destRegister := (instruction >>> 9) &&& 0x7
    let firstOperand := (instruction >>> 6) &&& 0x7
    let v :=
      if (instruction >>> 5) &&& 1 = 1 then
        (m.registers firstOperand + signExtend (instruction &&& 0x1F) 5) % 65536
      else
        (m.registers firstOperand + m.registers (instruction &&& 0x7)) % 65536
    some (updateFlags destRegister (setReg destRegister v m))
  | 2 => -- OpLoad
    let destRegister := (instruction >>> 9) &&& 0x7
    let pcOffset9 := signExtend (instruction &&& 0x1fff) 9
    match memRead ((m.registers RPc + pcOffset9) % 65536) m with
    | none => none
    | some (v, m1) => some (updateFlags destRegister (setReg destRegister v m1))
  | 3 => -- OpStore: memWrite(registers[RPc+pcOffset9], registers[sourceRegister])
    let sourceRegister := (instruction >>> 9) &&& 0x7
    let pcOffset9 := signExtend (instruction &&& 0x1fff) 9
    match regGet m ((RPc + pcOffset9) % 65536) with
    | none => none
    | some addr => memWrite addr (m.registers sourceRegister) m
  | 4 => -- OpJumpRegister
    let m1 := setReg R7 (m.registers RPc) m
    if (instruction >>> 11) &&& 1 = 1 then
      some (setReg RPc
        ((m1.registers RPc + signExtend (instruction &&& 0x7ff) 11) % 65536) m1)
    else
      some (setReg RPc (m1.registers ((instruction >>> 6) &&& 0x7)) m1)
  | 5 => -- OpAnd
    let destRegister := (instruction >>> 9) &&& 0x7
    let firstOperand := (instruction >>> 6) &&& 0x7
    let v :=
      if (instruction >>> 5) &&& 1 = 1 then
        m.registers firstOperand &&& signExtend (instruction &&& 0x1F) 5
      else
        m.registers firstOperand &&& m.registers (instruction &&& 0x7)
    some (updateFlags destRegister (setReg destRegister v m))
  | 6 => -- OpLoadRegister
    let destRegister := (instruction >>> 9) &&& 0x7
    let baseRegister := (instruction >>> 6) &&& 0x7
    let pcOffset6 := signExtend (instruction &&& 0x3f) 6
    match memRead ((m.registers baseRegister + pcOffset6) % 65536) m with
    | none => none
    | some (v, m1) => some (updateFlags destRegister (setReg destRegister v m1))
  | 7 => -- OpStoreRegister
    let sourceRegister := (instruction >>> 9) &&& 0x7
    let baseRegister := (instruction >>> 6) &&& 0x7
    let pcOffset6 := signExtend (instruction &&& 0x3f) 6
    memWrite ((m.registers baseRegister + pcOffset6) % 65536)
      (m.registers sourceRegister) m
  | 8 => none -- OpRti: panic("not implemented")
  | 9 => -- OpNot
    let destRegister := (instruction >>> 9) &&& 0x7
    let sourceRegister := (instruction >>> 6) &&& 0x7
    some (updateFlags destRegister
      (setReg destRegister (m.registers sourceRegister ^^^ 0xffff) m))
  | 10 => -- OpLoadIndirect
    let destRegister := (instruction >>> 9) &&& 0x7
    let pcOffset9 := signExtend (instruction &&& 0x1fff) 9
    match memRead ((m.registers RPc + pcOffset9) % 65536) m with
    | none => none
    | some (a1, m1) =>
      match memRead a1 m1 with
      | none => none
      | some (v, m2) => some (updateFlags destRegister (setReg destRegister v m2))
  | 11 => -- OpStoreIndirect: memWrite(memRead(registers[RPc+pcOffset9]), ...)
    let sourceRegister := (instruction >>> 9) &&& 0x7
    let pcOffset9 := signExtend (instruction &&& 0x1fff) 9
    match regGet m ((RPc + pcOffset9) % 65536) with
    | none => none
    | some av =>
      match memRead av m with
      | none => none
      | some (addr, m1) => memWrite addr (m1.registers sourceRegister) m1
  | 12 => -- OpJump
    some (setReg RPc (m.registers ((instruction >>> 6) &&& 0x7)) m)
  | 13 => none -- OpRes: panic("not implemented")
  | 14 => -- OpLoadEffectiveAddress
    let destRegister := (instruction >>> 9) &&& 0x7
    some (updateFlags destRegister
      (setReg destRegister
        ((m.registers RPc + signExtend (instruction &&& 0x1fff) 9) % 65536) m))
  | 15 => -- OpTrap
    match instruction &&& 0xFF with
    | 0x20 => -- TrapGetC
      match getChar m with
      | none => none
      | some (c, m1) => some (setReg R0 c m1)
    | 0x21 => -- TrapOut
      some (emit (m.registers R0 &&& 0xff) m)
    | 0x22 => -- TrapPutS
      putsLoop 65536 (m.registers R0) m
    | 0x23 => -- TrapIn
      match getChar (emitAll promptChars m) with
      | none => none
      | some (c, m1) => some (setReg R0 c m1)
    | 0x24 => -- TrapPutSP
      putspLoop 65536 (m.registers R0) m
    | 0x25 => -- TrapHalt
      some { m with output := m.output ++ haltChars, running := false }
    | _ => some m -- no matching case in the Go switch: nothing happens
  | _ => some m

/-- One iteration of the `for running` loop: fetch, increment the
program counter, execute. -/
def step (m : Machine) : Option Machine :=
  match memRead (m.registers RPc) m with
  | none => none
  | some (instruction, m1) =>
    execInstr instruction (setReg RPc ((m1.registers RPc + 1) % 65536) m1)

/-- The `for running { ... }` loop, with fuel bounding the number of
modelled iterations. -/
def runLoop : Nat → Machine → Option Machine
  | 0, _ => none
  | fuel + 1, m =>
    if m.running then
      match step m with
      | none => none
      | some m1 => runLoop fuel m1
    else
      some m

/-- `func readUint16(file *os.File) (uint16, error)` over the remaining
byte stream: a clean end of stream yields `io.EOF` (`none`); a single
trailing byte is read into the zeroed 2-byte buffer and decoded
big-endian, so it becomes the high byte of the returned word. -/
def readUint16 : List Nat → Option (Nat × List Nat)
  | [] => none
  | [b0] => some ((b0 % 256) * 256, [])
  | b0 :: b1 :: rest => some ((b0 % 256) * 256 + b1 % 256, rest)

/-- The big-endian words encoded by a byte stream, a trailing odd byte
padded with a zero low byte, exactly as successive `readUint16` calls
return them. -/
def words : List Nat → List Nat
  | [] => []
  | [b0] => [(b0 % 256) * 256]
  | b0 :: b1 :: rest => ((b0 % 256) * 256 + b1 % 256) :: words rest

/-- The loading loop of `readImageFile`:
`for i := origin; i < (uint16Max - origin); i++` with each iteration
reading one word (`break` on `io.EOF`) and storing it at `memory[i]`.
`readUint16` is inlined into the three stream shapes so that the
recursion is structural on the stream; the `i < bound` test is checked
before each read exactly as in the Go loop. -/
def loadLoop (bound : Nat) : Nat → List Nat → (Nat → Nat) → (Nat → Nat)
  | _, [], mem => mem
  | i, [b0], mem =>
    if i < bound then upd mem i ((b0 % 256) * 256) else mem
  | i, b0 :: b1 :: rest, mem =>
    if i < bound then
      loadLoop bound (i + 1) rest (upd mem i ((b0 % 256) * 256 + b1 % 256))
    else mem

/-- `func readImageFile(file *os.File)`: the origin word is read with
its error discarded (`origin, _ := readUint16(file)`), so an unreadable
origin is silently taken to be 0; then the loading loop runs with the
bound `uint16Max - origin`. -/
def readImageFile (bytes : List Nat) (mem : Nat → Nat) : Nat → Nat :=
  match readUint16 bytes with
  | none => loadLoop (uint16Max - 0) 0 [] mem
  | some (origin, rest) => loadLoop (uint16Max - origin) origin rest mem

/-- `func readImage(path string)`: `os.Open` failure panics through
`checkErr` (`none`); otherwise the byte stream is handed to
`readImageFile`, which never fails. -/
def readImage (fileBytes : Option (List Nat)) (mem : Nat → Nat) : Option (Nat → Nat) :=
  match fileBytes with
  | none => none
  | some bytes => some (readImageFile bytes mem)

/-- `const PcStart = 0x3000`. -/
def PcStart : Nat := 0x3000

/-- An all-zero register file and memory. -/
def zeroRegs : Nat → Nat := fun _ => 0

/-- The register file right after `registers[RPc] = PcStart` in `main`
(Go globals are zero-initialised). -/
def initRegisters : Nat → Nat := upd zeroRegs RPc PcStart

/-- A quiescent machine with empty memory, used as a concrete test
state. -/
def initMachine : Machine :=
  { memory := fun _ => 0
    registers := initRegisters
    running := true
    output := []
    keys := []
    input := [] }

/-- An all-zero memory. -/
def zeroMem : Nat → Nat := fun _ => 0

/-- A machine whose program counter (already incremented past the
fetch) is 0x3000, with 0xAA stored at 0x3000 and 0xBB at 0x3200. -/
def c1m : Machine :=
  { memory := fun j => if j = 0x3200 then 0xBB else if j = 0x3000 then 0xAA else 0
    registers := upd zeroRegs RPc 0x3000
    running := true
    output := []
    keys := []
    input := [] }

/-- A machine whose `MrKbsr` memory cell holds 5 and whose next curses
key event is 0, so `checkKey` reports no pending input. -/
def c4m : Machine :=
  { memory := fun j => if j = MrKbsr then 5 else 0
    registers := zeroRegs
    running := true
    output := []
    keys := [0]
    input := [] }

/-- A machine with the string cells 0x41, 0x42, 0x00 at addresses
0xFDFE, 0xFDFF, 0xFE00 (the last being `MrKbsr`), `R0 = 0xFDFE`, a
pending key event and one stdin rune. -/
def c9cm : Machine :=
  { memory := fun j => if j = 0xFDFE then 0x41 else if j = 0xFDFF then 0x42 else 0
    registers := upd zeroRegs R0 0xFDFE
    running := true
    output := []
    keys := [1]
    input := [65] }

/-- A machine with the string cells 0x41, 0x42, 0x00 at addresses
0x3000, 0x3001, 0x3002 and `R0 = 0x3000`. -/
def c9wm : Machine :=
  { memory := fun j => if j = 0x3000 then 0x41 else if j = 0x3001 then 0x42 else 0
    registers := upd zeroRegs R0 0x3000
    running := true
    output := []
    keys := []
    input := [] }

/- ------------------------------------------------------------------ -/
/- Helper lemmas                                                       -/
/- ------------------------------------------------------------------ -/

theorem upd_same (f : Nat → Nat) (i v : Nat) : upd f i v i = v := by
  simp [upd]

theorem upd_other (f : Nat → Nat) (i v j : Nat) (h : j ≠ i) : upd f i v j = f j := by
  simp [upd, h]

/-- A read of any address other than `MrKbsr` only clears the `MrKbsr`
cell and returns the addressed cell. -/
theorem memRead_plain (address : Nat) (m : Machine)
    (hne : address ≠ MrKbsr) (hlt : address < uint16Max) :
    memRead address m
      = some (upd m.memory MrKbsr 0 address,
              { m with memory := upd m.memory MrKbsr 0 }) := by
  simp [memRead, hne, hlt]

/-- One unfolding of the `TrapPutS` loop. -/
theorem putsLoop_succ (fuel loc : Nat) (m : Machine) :
    putsLoop (fuel + 1) loc m
      = match memRead loc m with
        | none => none
        | some (char, m1) =>
          if char = 0 then some m1
          else putsLoop fuel ((loc + 1) % 65536) (emit (char % 256) m1) := rfl

/-- A TRAP with vector 0x22 runs the `TrapPutS` loop from `R0`. -/
theorem execInstr_puts (m : Machine) :
    execInstr 0xF022 m = putsLoop 65536 (m.registers R0) m := rfl

theorem loadLoop_nil (bound i : Nat) (mem : Nat → Nat) :
    loadLoop bound i [] mem = mem := rfl

theorem loadLoop_one (bound i b0 : Nat) (mem : Nat → Nat) :
    loadLoop bound i [b0] mem
      = if i < bound then upd mem i ((b0 % 256) * 256) else mem := rfl

theorem loadLoop_cons (bound i b0 b1 : Nat) (rest : List Nat) (mem : Nat → Nat) :
    loadLoop bound i (b0 :: b1 :: rest) mem
      = if i < bound then
          loadLoop bound (i + 1) rest (upd mem i ((b0 % 256) * 256 + b1 % 256))
        else mem := rfl

/-- Full characterisation of the loading loop: the word at stream
position `j - i` lands in cell `j` exactly when every loop index up to
`j` stays below the bound; all other cells keep their old contents. -/
theorem loadLoop_eq (bound : Nat) :
    ∀ (bytes : List Nat) (i : Nat) (mem : Nat → Nat) (j : Nat),
    loadLoop bound i bytes mem j
      = if i ≤ j ∧ j < bound ∧ j - i < (words bytes).length
        then (words bytes).getD (j - i) 0
        else mem j := by
  intro bytes
  induction bytes using words.induct with
  | case1 =>
    intro i mem j
    rw [loadLoop_nil]
    rw [if_neg]
    rintro ⟨_, _, hlt⟩
    simp [words] at hlt
  | case2 b0 =>
    intro i mem j
    rw [loadLoop_one]
    by_cases hib : i < bound
    · rw [if_pos hib]
      by_cases hj : j = i
      · rw [hj, upd_same]
        rw [if_pos ⟨le_refl i, hib, by simp [words]⟩]
        simp [words]
      · rw [upd_other _ _ _ _ hj]
        rw [if_neg]
        rintro ⟨hle, _, hlt⟩
        simp only [words, List.length_cons, List.length_nil] at hlt
        exact hj (by omega)
    · rw [if_neg hib, if_neg]
      rintro ⟨hle, hjb, _⟩
      exact hib (by omega)
  | case3 b0 b1 rest ih =>
    intro i mem j
    rw [loadLoop_cons]
    by_cases hib : i < bound
    · rw [if_pos hib, ih (i + 1) (upd mem i ((b0 % 256) * 256 + b1 % 256)) j]
      by_cases hj : j = i
      · rw [if_neg (by rintro ⟨hle, _, _⟩; omega :
            ¬ (i + 1 ≤ j ∧ j < bound ∧ j - (i + 1) < (words rest).length))]
        rw [hj, upd_same]
        rw [if_pos ⟨le_refl i, hib, by simp [words]⟩]
        simp [words]
      · rw [upd_other _ _ _ _ hj]
        by_cases hc : i + 1 ≤ j ∧ j < bound ∧ j - (i + 1) < (words rest).length
        · rw [if_pos hc]
          obtain ⟨h1, h2, h3⟩ := hc
          rw [if_pos (⟨by omega, h2, by
            simp only [words, List.length_cons]; omega⟩ :
            i ≤ j ∧ j < bound ∧ j - i < (words (b0 :: b1 :: rest)).length)]
          have hji : j - i = (j - (i + 1)) + 1 := by omega
          simp only [words, hji, List.getD_cons_succ]
        · rw [if_neg hc, if_neg]
          rintro ⟨h1, h2, h3⟩
          simp only [words, List.length_cons] at h3
          exact hc ⟨by omega, h2, by omega⟩
    · rw [if_neg hib, if_neg]
      rintro ⟨hle, hjb, _⟩
      exact hib (by omega)

/-- For a 16-bit value, the Go test `v >> 15 == 1` is the test
`32768 ≤ v`. -/
theorem shiftRight15_eq_one_iff (v : Nat) (h : v < 65536) :
    v >>> 15 = 1 ↔ 32768 ≤ v := by
  rw [Nat.shiftRight_eq_div_pow]
  have hp : (2 : Nat) ^ 15 = 32768 := by norm_num
  rw [hp]
  constructor
  · intro hd
    by_contra hlt
    push_neg at hlt
    have := Nat.div_eq_of_lt (show v < 32768 by omega)
    omega
  · intro hge
    have h1 : 1 ≤ v / 32768 := (Nat.le_div_iff_mul_le (by norm_num)).2 (by omega)
    have h2 : v / 32768 < 2 := (Nat.div_lt_iff_lt_mul (by norm_num)).2 (by omega)
    omega

/-- For a 16-bit value, bit 15 is set exactly when `32768 ≤ v`. -/
theorem testBit15_iff (v : Nat) (h : v < 65536) :
    Nat.testBit v 15 = true ↔ 32768 ≤ v := by
  rw [Nat.testBit_to_div_mod]
  have hp : (2 : Nat) ^ 15 = 32768 := by norm_num
  rw [hp]
  constructor
  · intro hd
    by_contra hlt
    push_neg at hlt
    have hz : v / 32768 = 0 := Nat.div_eq_of_lt (by omega)
    rw [hz] at hd
    simp at hd
  · intro hge
    have h1 : 1 ≤ v / 32768 := (Nat.le_div_iff_mul_le (by norm_num)).2 (by omega)
    have h2 : v / 32768 < 2 := (Nat.div_lt_iff_lt_mul (by norm_num)).2 (by omega)
    have hv1 : v / 32768 = 1 := by omega
    rw [hv1]
    simp

/- ------------------------------------------------------------------ -/
/- Claim theorems                                                      -/
/- ------------------------------------------------------------------ -/

/-- C1: refuted on the code.  The handlers mask the fetched word with
`0x1fff` (13 bits) before the 9-bit sign extension, so when bit 8 is
clear the bits 12-9 of the instruction leak into the offset.  With the
program counter at 0x3000, the LD instruction 0x2200 (destination
register 1, offset field 0) loads from 0x3200 rather than 0x3000, while
LD 0x2000 (destination register 0, same offset field) loads from
0x3000: the bits 11-9 changed the computed target address. -/
theorem c1_offsetUsesBits12to9 :
    Option.map (fun mm => mm.registers 1) (execInstr 0x2200 c1m) = some 0xBB
    ∧ Option.map (fun mm => mm.registers 0) (execInstr 0x2000 c1m) = some 0xAA
    ∧ signExtend (0x2200 &&& 0x1fff) 9 = 512
    ∧ signExtend (0x2200 &&& 0x1ff) 9 = 0 :=
  ⟨rfl, rfl, rfl, rfl⟩

/-- C2: refuted on the code.  The ST and STI handlers index the
register file at `RPc + pcOffset9` instead of reading the program
counter and adding the offset; for the instructions 0x3002 (ST) and
0xB002 (STI) the index is far beyond the 10-entry register array, so
both executions panic (`none`) instead of writing memory at
`PC + 2`. -/
theorem c2_storeIndexesRegisterFile :
    execInstr 0x3002 c1m = none ∧ execInstr 0xB002 c1m = none :=
  ⟨rfl, rfl⟩

/-- C3: refuted on the code.  The Go memory array is declared with
length `uint16Max = 65535`, so it has 65535 cells and address 0xFFFF is
out of range: both `memRead` and `memWrite` panic there, while 0xFFFE
still succeeds. -/
theorem c3_memoryArrayTooSmall :
    uint16Max = 65535
    ∧ (memRead 0xFFFE c1m).isSome = true
    ∧ memRead 0xFFFF c1m = none
    ∧ memWrite 0xFFFF 7 c1m = none :=
  ⟨rfl, rfl, rfl, rfl⟩

/-- C4: refuted on the code.  The `else` of `memRead` is attached to
the outer address test, so a read of `MrKbsr` with no pending key
leaves the cell untouched (it stays 5), while a read of any other
address (here 0) clears the `MrKbsr` cell to 0 as a side effect. -/
theorem c4_kbsrClearInverted :
    Option.map (fun p => p.2.memory MrKbsr) (memRead MrKbsr c4m) = some 5
    ∧ Option.map (fun p => p.2.memory MrKbsr) (memRead 0 c4m) = some 0 :=
  ⟨rfl, rfl⟩

/-- C5 counterexample: with origin 0x8000 and the single word 0x1234
the loop bound `uint16Max - origin = 0x7FFF` is below the starting
index, so nothing is stored: `memory[0x8000]` stays 0 instead of
becoming 0x1234 as the claim requires. -/
theorem c5_counterexample :
    readImageFile [0x80, 0x00, 0x12, 0x34] zeroMem 0x8000 = 0
    ∧ readImageFile [0x80, 0x00, 0x12, 0x34] zeroMem 0x8000 ≠ 0x1234 :=
  ⟨rfl, by intro h; rw [show readImageFile [0x80, 0x00, 0x12, 0x34] zeroMem 0x8000 = 0 from rfl] at h; omega⟩

/-- C5 (amended): once the origin word has been read, the loader stores
the k-th following word at cell `origin + k` exactly when that cell
index is below `uint16Max - origin`, stopping at the bound or at the
end of the stream, and every other cell keeps its previous contents;
`main` initialises the program counter register to `PcStart = 0x3000`
before the first cycle. -/
theorem c5_loaderStopsAtBound (bytes rest : List Nat) (origin : Nat)
    (mem : Nat → Nat) (j : Nat)
    (h : readUint16 bytes = some (origin, rest)) :
    (readImageFile bytes mem j
      = if origin ≤ j ∧ j < uint16Max - origin ∧ j - origin < (words rest).length
        then (words rest).getD (j - origin) 0
        else mem j)
    ∧ initRegisters RPc = PcStart ∧ PcStart = 0x3000 := by
  refine ⟨?_, rfl, rfl⟩
  simp only [readImageFile, h]
  rw [loadLoop_eq]

/-- C5 witness: the spec's own example, origin 0x3000 with words
0x1001 and 0x1002, lands as stated. -/
theorem c5_witness :
    readUint16 [0x30, 0x00, 0x10, 0x01, 0x10, 0x02]
      = some (0x3000, [0x10, 0x01, 0x10, 0x02])
    ∧ readImageFile [0x30, 0x00, 0x10, 0x01, 0x10, 0x02] zeroMem 0x3000 = 0x1001
    ∧ readImageFile [0x30, 0x00, 0x10, 0x01, 0x10, 0x02] zeroMem 0x3001 = 0x1002 := by
  refine ⟨rfl, ?_, ?_⟩
  · rw [(c5_loaderStopsAtBound [0x30, 0x00, 0x10, 0x01, 0x10, 0x02]
      [0x10, 0x01, 0x10, 0x02] 0x3000 zeroMem 0x3000 rfl).1]
    norm_num [words, uint16Max]
  · rw [(c5_loaderStopsAtBound [0x30, 0x00, 0x10, 0x01, 0x10, 0x02]
      [0x10, 0x01, 0x10, 0x02] 0x3000 zeroMem 0x3001 rfl).1]
    norm_num [words, uint16Max]

/-- C6 counterexample: on an empty stream the origin word cannot be
read, yet loading succeeds (the error from `readUint16` is discarded by
`origin, _ := ...`), returning the memory unchanged instead of failing
fatally. -/
theorem c6_counterexample :
    readImage (some []) zeroMem = some zeroMem
    ∧ (readImage (some []) zeroMem).isSome = true :=
  ⟨rfl, rfl⟩

/-- C6 (amended): image loading fails fatally only when the stream
cannot be opened (and then no instruction executes, since the panic
precedes the run loop); a failure to read the origin word is ignored,
the origin is taken to be 0 and loading continues with the exhausted
stream, leaving memory unchanged; once the stream is open, loading
always completes without error; a clean end of stream when reading a
word terminates loading normally, while a single trailing byte is
decoded as a word with that byte in the high position. -/
theorem c6_loadFailures :
    (∀ mem : Nat → Nat, readImage none mem = none)
    ∧ (∀ (bytes : List Nat) (mem : Nat → Nat),
        (readImage (some bytes) mem).isSome = true)
    ∧ (∀ mem : Nat → Nat, readImage (some []) mem = some mem)
    ∧ readUint16 [] = none
    ∧ (∀ b0 : Nat, readUint16 [b0] = some ((b0 % 256) * 256, [])) :=
  ⟨fun _ => rfl, fun _ _ => rfl, fun _ => rfl, rfl, fun _ => rfl⟩

/-- C7: confirmed.  For a 16-bit register value, `updateFlags` writes
exactly one of `FlagPositive`, `FlagZero`, `FlagNegative` into the
condition-flag register (overwriting whatever was there), the choice
matching the claim: zero gives ZERO, nonzero with bit 15 set gives
NEGATIVE, anything else gives POSITIVE; no other register changes. -/
theorem c7_updateFlags (m : Machine) (i : Nat) (hv : m.registers i < 65536) :
    ((updateFlags i m).registers RCond = FlagPositive
      ∨ (updateFlags i m).registers RCond = FlagZero
      ∨ (updateFlags i m).registers RCond = FlagNegative)
    ∧ ((updateFlags i m).registers RCond = FlagZero ↔ m.registers i = 0)
    ∧ ((updateFlags i m).registers RCond = FlagNegative
        ↔ (m.registers i ≠ 0 ∧ Nat.testBit (m.registers i) 15 = true))
    ∧ ((updateFlags i m).registers RCond = FlagPositive
        ↔ (m.registers i ≠ 0 ∧ ¬ Nat.testBit (m.registers i) 15 = true))
    ∧ (∀ j, j ≠ RCond → (updateFlags i m).registers j = m.registers j) := by
  by_cases h0 : m.registers i = 0
  · unfold updateFlags
    rw [if_pos h0]
    have htb : Nat.testBit (m.registers i) 15 = false := by
      rw [h0]
      simp
    simp [setReg, upd, RCond, FlagPositive, FlagZero, FlagNegative, h0, htb]
    intro j hj hj2
    exact absurd hj2 hj
  · by_cases h15 : m.registers i >>> 15 = 1
    · unfold updateFlags
      rw [if_neg h0, if_pos h15]
      have hge : 32768 ≤ m.registers i := (shiftRight15_eq_one_iff _ hv).1 h15
      have htb : Nat.testBit (m.registers i) 15 = true := (testBit15_iff _ hv).2 hge
      simp [setReg, upd, RCond, FlagPositive, FlagZero, FlagNegative, h0, htb]
      intro j hj hj2
      exact absurd hj2 hj
    · unfold updateFlags
      rw [if_neg h0, if_neg h15]
      have htb : Nat.testBit (m.registers i) 15 = false := by
        rw [← Bool.not_eq_true]
        intro ht
        exact h15 ((shiftRight15_eq_one_iff _ hv).2 ((testBit15_iff _ hv).1 ht))
      simp [setReg, upd, RCond, FlagPositive, FlagZero, FlagNegative, h0, htb]
      intro j hj hj2
      exact absurd hj2 hj

/-- C7 witness: at the quiescent machine and register 0 (value 0) the
flag register is set to ZERO and register 0 keeps its value. -/
theorem c7_witness :
    ((updateFlags 0 initMachine).registers RCond = FlagZero
      ↔ initMachine.registers 0 = 0)
    ∧ (updateFlags 0 initMachine).registers 0 = initMachine.registers 0 :=
  ⟨(c7_updateFlags initMachine 0 (by norm_num [initMachine, initRegisters, upd, zeroRegs, RPc, PcStart])).2.1,
   (c7_updateFlags initMachine 0 (by norm_num [initMachine, initRegisters, upd, zeroRegs, RPc, PcStart])).2.2.2.2 0 (by norm_num [RCond])⟩

/-- C8: confirmed.  Executing a TRAP instruction with vector 0x25
prints the halt notice and clears `running`; memory, every register
(including the already-incremented program counter) and the condition
flag keep the values they had when the TRAP body began, and the run
loop returns at once without performing any further fetch. -/
theorem c8_haltStopsLoop (m : Machine) (instr : Nat)
    (h1 : instr >>> 12 = 15) (h2 : instr &&& 0xFF = 0x25) :
    execInstr instr m
      = some { m with output := m.output ++ haltChars, running := false }
    ∧ ∀ fuel, runLoop (fuel + 1)
        { m with output := m.output ++ haltChars, running := false }
        = some { m with output := m.output ++ haltChars, running := false } := by
  constructor
  · simp only [execInstr, h1, h2]
  · intro fuel
    simp [runLoop]

/-- C8 witness: the concrete TRAP HALT word 0xF025 on the quiescent
machine. -/
theorem c8_witness :
    execInstr 0xF025 initMachine
      = some { initMachine with output := initMachine.output ++ haltChars, running := false }
    ∧ runLoop 1 { initMachine with output := initMachine.output ++ haltChars, running := false }
      = some { initMachine with output := initMachine.output ++ haltChars, running := false } :=
  ⟨(c8_haltStopsLoop initMachine 0xF025 rfl rfl).1,
   (c8_haltStopsLoop initMachine 0xF025 rfl rfl).2 0⟩

/-- C9 counterexample: starting at `a = 0xFDFE` the three cells
`a, a+1, a+2` hold 0x41, 0x42, 0x00, yet with a pending key the read of
`a+2 = MrKbsr` returns the keyboard status word 0x8000 instead of the
stored zero, so PUTS emits a third byte 0x00 and does not stop at the
zero word as the claim requires for every starting address. -/
theorem c9_counterexample :
    Option.map (fun mm => mm.output) (execInstr 0xF022 c9cm)
      = some [0x41, 0x42, 0x00]
    ∧ Option.map (fun mm => mm.output) (execInstr 0xF022 c9cm)
        ≠ some (c9cm.output ++ [0x41, 0x42]) := by
  refine ⟨rfl, ?_⟩
  intro hcontra
  rw [show Option.map (fun mm => mm.output) (execInstr 0xF022 c9cm)
      = some [0x41, 0x42, 0x00] from rfl] at hcontra
  simp [c9cm] at hcontra

/-- C9 (amended): for every starting address `a` in `R0` whose
three-cell window avoids the memory-mapped `MrKbsr` address and the
out-of-range cell 0xFFFF, if the cells at `a`, `a+1`, `a+2` hold 0x41,
0x42, 0x00 then PUTS emits exactly the bytes 0x41 and 0x42 and stops at
the zero word without emitting it; the claim holds for every machine
regardless of the contents of `a+3`, so that cell is never read. -/
theorem c9_putsStopsAtZero (m : Machine) (a : Nat)
    (hr : m.registers R0 = a)
    (hio : a + 2 < 0xFE00 ∨ 0xFE00 < a)
    (hb : a + 2 < 65535)
    (h0 : m.memory a = 0x41)
    (h1 : m.memory (a + 1) = 0x42)
    (h2 : m.memory (a + 2) = 0) :
    Option.map (fun mm => mm.output) (execInstr 0xF022 m)
      = some (m.output ++ [0x41, 0x42]) := by
  have e0 : a ≠ MrKbsr := by simp only [MrKbsr]; omega
  have e1 : a + 1 ≠ MrKbsr := by simp only [MrKbsr]; omega
  have e2 : a + 2 ≠ MrKbsr := by simp only [MrKbsr]; omega
  have l0 : a < uint16Max := by simp only [uint16Max]; omega
  have l1 : a + 1 < uint16Max := by simp only [uint16Max]; omega
  have l2 : a + 2 < uint16Max := by simp only [uint16Max]; omega
  have hm1 : (a + 1) % 65536 = a + 1 := Nat.mod_eq_of_lt (by omega)
  have hm2 : (a + 1 + 1) % 65536 = a + 2 := Nat.mod_eq_of_lt (by omega)
  rw [execInstr_puts m, hr]
  rw [show (65536 : Nat) = 65535 + 1 from rfl, putsLoop_succ,
      memRead_plain a m e0 l0]
  simp only [upd_other _ _ _ _ e0, h0]
  norm_num [emit]
  rw [show (65535 : Nat) = 65534 + 1 from rfl, putsLoop_succ, hm1,
      memRead_plain _ _ e1 l1]
  simp only [upd_other _ _ _ _ e1, h1]
  norm_num [emit]
  rw [show (65534 : Nat) = 65533 + 1 from rfl, putsLoop_succ, hm2,
      memRead_plain _ _ e2 l2]
  simp only [upd_other _ _ _ _ e2, h2]
  simp

/-- C9 witness: the window at 0x3000 with cells 0x41, 0x42, 0x00 emits
exactly the two bytes. -/
theorem c9_witness :
    Option.map (fun mm => mm.output) (execInstr 0xF022 c9wm)
      = some (c9wm.output ++ [0x41, 0x42]) :=
  c9_putsStopsAtZero c9wm 0x3000 rfl (Or.inl (by norm_num)) (by norm_num)
    rfl rfl rfl

/-- C10: confirmed.  A TRAP instruction whose low byte matches none of
the six implemented vectors falls through the Go `switch` with no
matching case: the machine state is returned entirely unchanged (same
registers, memory, condition flag, output and `running`), so the loop
simply proceeds to the next fetch. -/
theorem c10_unknownTrapNoop (m : Machine) (instr : Nat)
    (h1 : instr >>> 12 = 15)
    (h2 : ¬ (TrapGetC ≤ instr &&& 0xFF ∧ instr &&& 0xFF ≤ TrapHalt)) :
    execInstr instr m = some m := by
  simp only [TrapGetC, TrapHalt] at h2
  simp only [execInstr, h1]
  split
  · exact absurd (by omega) h2
  · exact absurd (by omega) h2
  · exact absurd (by omega) h2
  · exact absurd (by omega) h2
  · exact absurd (by omega) h2
  · exact absurd (by omega) h2
  · rfl

/-- C10 witness: the TRAP word 0xF000 (vector 0x00) leaves the
quiescent machine untouched. -/
theorem c10_witness : execInstr 0xF000 initMachine = some initMachine :=
  c10_unknownTrapNoop initMachine 0xF000 rfl (by decide)
